import Mathlib

/-!
Verification development for the JTS voice-assistant repository.

Shallow embedding of the pure core of the Python sources:
  - scripts/ask_hybrid.py and scripts/ask_cloud.py (weight extraction,
    dosage strings, fast lookup, routing, conversation memory),
  - scripts/voice_calculator_assistant.py (entity extraction, dosing table,
    dose calculation, main dispatch),
  - scripts/utils.py (docs-file persistence; the committed
    scripts/build_index.py driver is not parseable Python and is therefore
    not embedded),
  - jts_service_optimized.py / search_clinical_info (metadata addressing).

Conventions: Python floats are modelled as exact rationals; regular
expressions in the sources are all of a few fixed shapes (a captured digit
run followed by optional whitespace and literal alternatives, or word-bounded
literal alternatives) and are embedded as direct string scanners with the
same leftmost-match semantics; `try/except` wrappers are modelled by
`Option`-valued backends where `none` stands for a raised exception.
-/

/-- Python `\s` whitespace class (ASCII part, which covers all inputs here). -/
def isPySpace (c : Char) : Bool :=
  c = ' ' || c = '\t' || c = '\n' || c = '\r' || c = '\x0b' || c = '\x0c'

/-- Python `\w` word-character class (ASCII part). -/
def isWordChar (c : Char) : Bool :=
  c.isAlpha || c.isDigit || c = '_'

/-- Lower-cased character list of a query, modelling Python `text.lower()`. -/
def pyLower (s : String) : List Char :=
  s.toList.map Char.toLower

/-- Membership of `needle` as a contiguous substring of `hay`, modelling the
Python expression `needle in hay` on strings. -/
def listSub (needle hay : List Char) : Bool :=
  hay.tails.any (fun t => needle.isPrefixOf t)

/-- String-literal front end for `listSub`. -/
def isSubstr (needle : String) (hay : List Char) : Bool :=
  listSub needle.toList hay

/-- Numeric value of a digit run, modelling Python `int(...)`/`float(...)` on
the captured group of `(\d+)`. -/
def natOfDigits (ds : List Char) : Nat :=
  ds.foldl (fun a c => a * 10 + (c.toNat - 48)) 0

/-- Match a sequence of literal segments, each preceded by `\s*`, at the head
of `s`.  This is the continuation of every weight pattern after the captured
digit run: the literals all start with a letter, so the maximal-munch
treatment of `\s*` coincides with the regex backtracking semantics. -/
def matchPath : List String → List Char → Bool
  | [], _ => true
  | lit :: rest, s =>
    let s' := s.dropWhile isPySpace
    lit.toList.isPrefixOf s' && matchPath rest (s'.drop lit.toList.length)

/-- Attempt a `(\d+)\s*...` pattern at the current position: a non-empty
digit run (the capture), followed by one of the alternative literal paths.
A regex alternation is expanded into the list of its concrete paths. -/
def numThenAt (paths : List (List String)) (s : List Char) : Option (List Char) :=
  let ds := s.takeWhile Char.isDigit
  if ds.isEmpty then none
  else if paths.any (fun p => matchPath p (s.drop ds.length)) then some ds
  else none

/-- Leftmost search for a `(\d+)\s*...` pattern, modelling `re.search`:
positions are tried left to right and the first matching one wins. -/
def searchNum (paths : List (List String)) : List Char → Option (List Char)
  | [] => none
  | c :: t =>
    match numThenAt paths (c :: t) with
    | some ds => some ds
    | none => searchNum paths t

/-- Attempt `weighs?\s*(\d+)` at the current position: the literal `weigh`,
an optional `s` (taking it greedily is exact, since the without-s branch
would immediately need a digit where the `s` stands), optional whitespace,
and the captured digit run. -/
def weighAt (s : List Char) : Option (List Char) :=
  if ("weigh").toList.isPrefixOf s then
    let r := s.drop 5
    let r :=
      match r with
      | 's' :: r2 => r2
      | _ => r
    let ds := (r.dropWhile isPySpace).takeWhile Char.isDigit
    if ds.isEmpty then none else some ds
  else none

/-- Leftmost search for `weighs?\s*(\d+)` (voice_calculator_assistant.py). -/
def searchWeighNum : List Char → Option (List Char)
  | [] => none
  | c :: t =>
    match weighAt (c :: t) with
    | some ds => some ds
    | none => searchWeighNum t

/-- Attempt `pre\s*(\d+)\s*...` at the current position: a literal, then
optional whitespace, the captured digit run, and one of the alternative
literal paths. -/
def litNumAt (pre : String) (paths : List (List String)) (s : List Char) :
    Option (List Char) :=
  if pre.toList.isPrefixOf s then
    let r := (s.drop pre.toList.length).dropWhile isPySpace
    let ds := r.takeWhile Char.isDigit
    if ds.isEmpty then none
    else if paths.any (fun p => matchPath p (r.drop ds.length)) then some ds
    else none
  else none

/-- Leftmost search for `pre\s*(\d+)\s*...` patterns such as
`patient\s*(\d+)\s*(?:kg|kilos?|kilograms?)`. -/
def searchLitNum (pre : String) (paths : List (List String)) : List Char → Option (List Char)
  | [] => none
  | c :: t =>
    match litNumAt pre paths (c :: t) with
    | some ds => some ds
    | none => searchLitNum pre paths t

/-- The six weight patterns of `extract_weight` in ask_hybrid.py (the same
list appears verbatim in ask_cloud.py), in source order:
`(\d+)\s*kg`, `(\d+)\s*kilo`, `(\d+)\s*pound`, `(\d+)\s*lb`,
`(\d+)\s*kg\s*pt`, `(\d+)\s*kg\s*patient`. -/
def hybridWeightPatterns : List (List (List String)) :=
  [ [["kg"]], [["kilo"]], [["pound"]], [["lb"]], [["kg", "pt"]], [["kg", "patient"]] ]

/-- Conversion factor applied by `extract_weight` for pound inputs. -/
def lbFactor : ℚ := 453592 / 1000000

/-- Loop body of `extract_weight` (ask_hybrid.py / ask_cloud.py): try each
pattern in order; on the first match convert the captured number to
kilograms when the lower-cased question contains `'pound'` or `'lb'`.
`s` is the lower-cased question. -/
def extractLoopHy : List (List (List String)) → List Char → Option ℚ
  | [], _ => none
  | p :: rest, s =>
    match searchNum p s with
    | some ds =>
      let w : ℚ := natOfDigits ds
      some (if isSubstr "pound" s || isSubstr "lb" s then w * lbFactor else w)
    | none => extractLoopHy rest s

/-- List-level `extract_weight` over an already lower-cased question. -/
def extractWeightL (s : List Char) : Option ℚ :=
  extractLoopHy hybridWeightPatterns s

/-- `extract_weight(question)` from ask_hybrid.py (identical in
ask_cloud.py). -/
def extract_weight (question : String) : Option ℚ :=
  extractWeightL (pyLower question)

/-- Capture-only variant of the hybrid pattern loop: the digit run captured
by the first matching pattern, with no unit conversion. -/
def captureLoop : List (List (List String)) → List Char → Option (List Char)
  | [], _ => none
  | p :: rest, s =>
    match searchNum p s with
    | some ds => some ds
    | none => captureLoop rest s

/-- First captured digit run of the hybrid weight patterns. -/
def hyFirstCaptureL (s : List Char) : Option (List Char) :=
  captureLoop hybridWeightPatterns s

/-- Alternative paths of `(?:kg|kilos?|kilograms?)`. -/
def vcKgAlts : List (List String) :=
  [["kg"], ["kilo"], ["kilos"], ["kilogram"], ["kilograms"]]

/-- Alternative paths of `(?:pounds?|lbs?)`. -/
def vcLbAlts : List (List String) :=
  [["pound"], ["pounds"], ["lb"], ["lbs"]]

/-- Alternative paths of `(?:kg|kilos?|kilograms?)\s*patient`. -/
def vcKgPatientAlts : List (List String) :=
  [["kg", "patient"], ["kilo", "patient"], ["kilos", "patient"],
   ["kilogram", "patient"], ["kilograms", "patient"]]

/-- First captured digit run of the five weight patterns of
`extract_weight_and_drug` in voice_calculator_assistant.py, in source
order. -/
def vcFirstCaptureL (s : List Char) : Option (List Char) :=
  match searchNum vcKgAlts s with
  | some ds => some ds
  | none =>
  match searchNum vcLbAlts s with
  | some ds => some ds
  | none =>
  match searchWeighNum s with
  | some ds => some ds
  | none =>
  match searchNum vcKgPatientAlts s with
  | some ds => some ds
  | none => searchLitNum "patient" vcKgAlts s

/-- Weight half of `extract_weight_and_drug` (voice_calculator_assistant.py):
`weight = int(match.group(1))` of the first matching pattern; no unit
conversion of any kind is applied. -/
def vcWeightL (s : List Char) : Option Nat :=
  match vcFirstCaptureL s with
  | some ds => some (natOfDigits ds)
  | none => none

/-- String front end of the voice-calculator weight extraction. -/
def vcExtractWeight (text : String) : Option Nat :=
  vcWeightL (pyLower text)

/-- The conversion step of the hybrid extraction loop commutes with the
capture-only loop: the converted weight is a function of the captured digit
run and of the substring test on the whole query, independent of which
pattern produced the capture. -/
theorem extractLoopHy_eq_captureLoop (pats : List (List (List String))) (s : List Char) :
    extractLoopHy pats s =
      (captureLoop pats s).map (fun ds =>
        if isSubstr "pound" s || isSubstr "lb" s then (natOfDigits ds : ℚ) * lbFactor
        else (natOfDigits ds : ℚ)) := by
  induction pats with
  | nil => rfl
  | cons p rest ih =>
    simp only [extractLoopHy, captureLoop]
    cases searchNum p s with
    | some ds => rfl
    | none => simpa using ih

example : extract_weight "80.5 kg" = some 5 := by decide
example : extract_weight "ketamine rsi" = none := by decide
example : vcExtractWeight "patient weighs 80 kilograms" = some 80 := by decide
example : vcExtractWeight "50 pounds patient" = some 50 := by decide
example : vcExtractWeight "80.5 kg" = some 5 := by decide

example : extract_weight "100 kg albuterol" = some (453592 / 10000 : ℚ) := by
  have hc : captureLoop hybridWeightPatterns (pyLower "100 kg albuterol") =
      some ['1', '0', '0'] := by decide
  have hf : (isSubstr "pound" (pyLower "100 kg albuterol")
      || isSubstr "lb" (pyLower "100 kg albuterol")) = true := by decide
  have hn : natOfDigits ['1', '0', '0'] = 100 := by decide
  rw [extract_weight, extractWeightL, extractLoopHy_eq_captureLoop, hc]
  simp only [Option.map_some, hf, if_true]
  norm_num [hn, lbFactor]

/-- The drug synonym table of `extract_weight_and_drug`
(voice_calculator_assistant.py), in dict insertion order; matching is by
plain substring containment, first entry wins. -/
def vcDrugs : List (String × String) :=
  [("ketamine", "ketamine"), ("ket", "ketamine"),
   ("rocuronium", "rocuronium"), ("rocur", "rocuronium"), ("roc", "rocuronium"),
   ("succinylcholine", "succinylcholine"), ("succ", "succinylcholine"),
   ("succs", "succinylcholine"),
   ("fentanyl", "fentanyl"), ("fent", "fentanyl"),
   ("morphine", "morphine"), ("morph", "morphine"),
   ("midazolam", "midazolam"), ("versed", "midazolam"),
   ("propofol", "propofol"), ("prop", "propofol"),
   ("etomidate", "etomidate"), ("etom", "etomidate"),
   ("txa", "tranexamic acid"), ("tranexamic", "tranexamic acid"),
   ("tranexamic acid", "tranexamic acid")]

/-- Drug half of `extract_weight_and_drug`. -/
def vcExtractDrug (text : String) : Option String :=
  let s := pyLower text
  (vcDrugs.find? (fun kv => isSubstr kv.1 s)).map (fun kv => kv.2)

/-- One entry of the `dosing_protocols` table of `calculate_dose`
(voice_calculator_assistant.py).  A missing `'max'` key is `none`, a missing
`'fixed'` key is `false`. -/
structure Protocol where
  dose : ℚ
  unit : String
  max : Option ℚ := none
  fixed : Bool := false
deriving DecidableEq

/-- The static `dosing_protocols` table, verbatim from
voice_calculator_assistant.py, with dict insertion order preserved (the
order of the indications matters for the first-indication fallback). -/
def dosing_protocols : List (String × List (String × Protocol)) :=
  [ ("ketamine",
      [ ("rsi", { dose := 1.5, unit := "mg/kg", max := some 200 }),
        ("pain", { dose := 0.3, unit := "mg/kg", max := some 50 }),
        ("sedation", { dose := 1.0, unit := "mg/kg", max := some 100 }) ]),
    ("rocuronium",
      [ ("rsi", { dose := 1.2, unit := "mg/kg", max := some 120 }),
        ("general", { dose := 0.6, unit := "mg/kg", max := some 60 }) ]),
    ("succinylcholine",
      [ ("rsi", { dose := 1.5, unit := "mg/kg", max := some 150 }) ]),
    ("fentanyl",
      [ ("pain", { dose := 1.0, unit := "mcg/kg", max := some 100 }),
        ("rsi", { dose := 2.0, unit := "mcg/kg", max := some 200 }) ]),
    ("morphine",
      [ ("pain", { dose := 0.1, unit := "mg/kg", max := some 10 }) ]),
    ("midazolam",
      [ ("sedation", { dose := 0.05, unit := "mg/kg", max := some 5 }),
        ("rsi", { dose := 0.1, unit := "mg/kg", max := some 10 }) ]),
    ("propofol",
      [ ("induction", { dose := 2.0, unit := "mg/kg", max := some 200 }),
        ("sedation", { dose := 0.5, unit := "mg/kg", max := some 50 }) ]),
    ("etomidate",
      [ ("rsi", { dose := 0.3, unit := "mg/kg", max := some 30 }) ]),
    ("tranexamic acid",
      [ ("trauma", { dose := 1000, unit := "mg", fixed := true }) ]) ]

/-- First-match association-list lookup, modelling Python dict access on the
tables above (insertion order is preserved by the list). -/
def alookup {α : Type} (key : String) (l : List (String × α)) : Option α :=
  (l.find? (fun kv => kv.1 == key)).map (fun kv => kv.2)

/-- Indication resolution step of `calculate_dose`: substring tests on the
lower-cased indication text, in source order, with fallback to the first
indication defined for the drug; a resolved name that is absent from the
drug's table is replaced by the first defined indication. -/
def resolveIndication (protos : List (String × Protocol)) (indication : String) : String :=
  let s := pyLower indication
  let ind :=
    if isSubstr "rsi" s || isSubstr "rapid sequence" s then "rsi"
    else if isSubstr "pain" s then "pain"
    else if isSubstr "sedation" s then "sedation"
    else if isSubstr "induction" s then "induction"
    else if isSubstr "trauma" s then "trauma"
    else ((protos.head?.map (fun kv => kv.1)).getD "")
  if (alookup ind protos).isSome then ind
  else ((protos.head?.map (fun kv => kv.1)).getD "")

/-- Ceiling application of `calculate_dose`:
`if total_dose > protocol['max']: total_dose = protocol['max']`. -/
def pyClamp (m x : ℚ) : ℚ :=
  if x > m then m else x

/-- The dosing rule (resolved indication name and protocol entry) that
`calculate_dose` ends up using for a drug and an indication text. -/
def resolveRule (drug indication : String) : Option (String × Protocol) :=
  match alookup drug dosing_protocols with
  | none => none
  | some protos =>
    let ind := resolveIndication protos indication
    (alookup ind protos).map (fun p => (ind, p))

/-- `calculate_dose(drug, weight_kg, indication)` from
voice_calculator_assistant.py.  An unknown drug yields `none` (the Python
code returns `(None, "Drug not found in protocols")`, which the caller
treats as failure). -/
def calculate_dose (drug : String) (weight_kg : ℚ) (indication : String) :
    Option (ℚ × String × String) :=
  match alookup drug dosing_protocols with
  | none => none
  | some protos =>
    let ind := resolveIndication protos indication
    match alookup ind protos with
    | none => none
    | some p =>
      if p.fixed then some (p.dose, p.unit, ind)
      else
        let total := p.dose * weight_kg
        let total :=
          match p.max with
          | some m => pyClamp m total
          | none => total
        some (total, p.unit, ind)

/-- Unfolding of `calculate_dose` through `resolveRule`. -/
theorem calculate_dose_resolveRule (drug : String) (w : ℚ) (indication : String) :
    calculate_dose drug w indication =
      (resolveRule drug indication).map (fun ip =>
        if ip.2.fixed then (ip.2.dose, ip.2.unit, ip.1)
        else
          (match ip.2.max with
           | some m => pyClamp m (ip.2.dose * w)
           | none => ip.2.dose * w, ip.2.unit, ip.1)) := by
  rw [calculate_dose, resolveRule]
  cases alookup drug dosing_protocols with
  | none => rfl
  | some protos =>
    simp only
    cases alookup (resolveIndication protos indication) protos with
    | none => rfl
    | some p => cases hp : p.fixed <;> simp [hp]

/-- Round-half-to-even on exact rationals, the rounding rule of Python
`round` (floats are modelled as exact rationals throughout). -/
def roundHalfEven (x : ℚ) : ℤ :=
  let f := ⌊x⌋
  let r := x - f
  if r < 1 / 2 then f
  else if 1 / 2 < r then f + 1
  else if f % 2 = 0 then f else f + 1

/-- Python `round(x, 1)` on the exact-rational model. -/
def pyRound1 (x : ℚ) : ℚ :=
  (roundHalfEven (x * 10) : ℚ) / 10

/-- Fueled scanner for `re.findall(r'\d+(?:\.\d+)?', base_dosage)`
(calculate_dosage in ask_hybrid.py / ask_cloud.py), returning the numeric
values of the matches in order.  The fuel is the length of the scanned list,
which bounds the number of scanning steps. -/
def findNumbersAux : Nat → List Char → List ℚ
  | 0, _ => []
  | _, [] => []
  | fuel + 1, c :: t =>
    if c.isDigit then
      let s := c :: t
      let ds := s.takeWhile Char.isDigit
      let rest := s.drop ds.length
      match rest with
      | '.' :: r2 =>
        let fs := r2.takeWhile Char.isDigit
        if fs.isEmpty then (natOfDigits ds : ℚ) :: findNumbersAux fuel rest
        else ((natOfDigits ds : ℚ) + (natOfDigits fs : ℚ) / ((10 : ℚ) ^ fs.length)) ::
          findNumbersAux fuel (r2.drop fs.length)
      | _ => (natOfDigits ds : ℚ) :: findNumbersAux fuel rest
    else findNumbersAux fuel t

/-- All decimal numbers occurring in a dosage string. -/
def findNumbers (s : List Char) : List ℚ :=
  findNumbersAux s.length s

/-- Result of `calculate_dosage`: a range string, a single-dose string, or
the unchanged base dosage (the string formatting itself is kept separate in
`fmtDosage`). -/
inductive DosageResult where
  | range (lo hi : ℚ)
  | single (d : ℚ)
  | unchanged
deriving DecidableEq

/-- `calculate_dosage(base_dosage, weight)` from ask_hybrid.py (identical in
ask_cloud.py): the first two numbers of the base string scale with the
weight and are rounded to one decimal; with a single number, that number
scales and rounds; otherwise the base string is returned unchanged. -/
def calculate_dosage (base_dosage : String) (weight : ℚ) : DosageResult :=
  match findNumbers base_dosage.toList with
  | n1 :: n2 :: _ => .range (pyRound1 (n1 * weight)) (pyRound1 (n2 * weight))
  | [n] => .single (pyRound1 (n * weight))
  | [] => .unchanged

/-- Decimal rendering of a rational, modelling Python float formatting in
f-strings for the finite-decimal values that occur in the dosage strings
(e.g. `120.0`, `45.3592`); up to six fractional digits are printed with
trailing zeros trimmed. -/
def fmtQ (x : ℚ) : String :=
  let neg := x < 0
  let a := if x < 0 then -x else x
  let ip := ⌊a⌋
  let scaled := ((a - ip) * 1000000).floor.toNat
  let ds := Nat.toDigits 10 scaled
  let padded := List.replicate (6 - ds.length) '0' ++ ds
  let trimmed := (padded.reverse.dropWhile (fun c => c = '0')).reverse
  let fracStr := if trimmed.isEmpty then "0" else String.mk trimmed
  (if neg then "-" else "") ++ toString ip ++ "." ++ fracStr

/-- String rendering of a `calculate_dosage` result: the code formats ranges
as `f"{min_total}-{max_total}mg"` and single doses as `f"{dose}mg"`. -/
def fmtDosage (base : String) : DosageResult → String
  | .range lo hi => fmtQ lo ++ "-" ++ fmtQ hi ++ "mg"
  | .single d => fmtQ d ++ "mg"
  | .unchanged => base

/-- One drug line of `get_fast_response`: with a truthy extracted weight the
base dosage is scaled and appended, otherwise the base dosage alone is
shown (Python `if weight:` is false both for `None` and for `0.0`). -/
def doseLine (label base question : String) : String :=
  match extract_weight question with
  | some w =>
    if w = 0 then label ++ base
    else label ++ base ++ " = " ++ fmtDosage base (calculate_dosage base w) ++ " for "
      ++ fmtQ w ++ "kg patient"
  | none => label ++ base

/-- Python `str.split()` with no argument: whitespace-separated words, no
empties.  Fueled by the length of the list, which bounds the steps. -/
def pySplitAux : Nat → List Char → List (List Char)
  | 0, _ => []
  | _, [] => []
  | fuel + 1, c :: t =>
    if isPySpace c then pySplitAux fuel t
    else
      let w := t.takeWhile (fun ch => !isPySpace ch)
      (c :: w) :: pySplitAux fuel (t.drop w.length)

/-- Whitespace word split of a character list. -/
def pySplitWords (s : List Char) : List (List Char) :=
  pySplitAux s.length s

/-- Python `str.split('.')`, keeping empty fields. -/
def splitOnDot : List Char → List (List Char)
  | [] => [[]]
  | c :: t =>
    if c = '.' then [] :: splitOnDot t
    else
      match splitOnDot t with
      | [] => [[c]]
      | h :: r => (c :: h) :: r

/-- Python `str.strip()` for whitespace. -/
def pyStrip (s : List Char) : List Char :=
  ((s.dropWhile isPySpace).reverse.dropWhile isPySpace).reverse

/-- The sentence-snippet fallback of `get_fast_response`: join the retrieved
chunks, split on `'.'`, and return the first sentence containing any word of
the lower-cased question, stripped and truncated to 150 characters; an empty
chunk list yields no answer (`if clinical_info:` fails). -/
def firstSnippet (clinical_info : List String) (ql : List Char) : Option String :=
  if clinical_info.isEmpty then none
  else
    let combined := String.intercalate " " clinical_info
    let sentences := splitOnDot combined.toList
    let ws := pySplitWords ql
    match sentences.find? (fun sent =>
        ws.any (fun w => listSub w (sent.map Char.toLower))) with
    | some sent => some (String.mk ((pyStrip sent).take 150))
    | none => none

/-- `get_fast_response(question, clinical_info)` from ask_hybrid.py (the
same function appears verbatim in ask_cloud.py): hard-coded drug branches by
substring tests on the lower-cased question, then the sentence-snippet
fallback, then `None`. -/
def get_fast_response (question : String) (clinical_info : List String) : Option String :=
  let ql := pyLower question
  let drugAns : Option String :=
    if isSubstr "ketamine" ql then
      if isSubstr "rsi" ql || isSubstr "induction" ql then
        some (doseLine "Ketamine RSI: " "1-2 mg/kg IV" question)
      else if isSubstr "pain" ql then
        some (doseLine "Ketamine pain: " "0.1-0.5 mg/kg IV" question)
      else none
    else if isSubstr "txa" ql || isSubstr "tranexamic" ql then
      if isSubstr "im" ql then
        some "TXA: Not recommended IM. Use 1g IV bolus, then 1g over 8h"
      else some "TXA: 1g IV bolus, then 1g over 8h"
    else if isSubstr "fentanyl" ql then
      some (doseLine "Fentanyl: " "1-2 mcg/kg IV" question)
    else none
  match drugAns with
  | some r => some r
  | none => firstSnippet clinical_info ql

/-- Word-boundary test before a match position: start of string or a
non-word character. -/
def boundaryB : Option Char → Bool
  | none => true
  | some c => !isWordChar c

/-- Word-boundary test after a match: end of string or a non-word
character. -/
def boundaryA : List Char → Bool
  | [] => true
  | c :: _ => !isWordChar c

/-- Scan for a word-bounded literal, modelling `re.search(r'\bw\b', s)` for
a literal `w` made of word characters. -/
def hasWordAux (w : List Char) : Option Char → List Char → Bool
  | prev, [] => boundaryB prev && w.isPrefixOf [] && boundaryA []
  | prev, c :: t =>
    (boundaryB prev && w.isPrefixOf (c :: t) && boundaryA ((c :: t).drop w.length))
    || hasWordAux w (some c) t

/-- Word-bounded occurrence of a literal in a character list. -/
def hasWord (s : List Char) (w : String) : Bool :=
  hasWordAux w.toList none s

/-- Scan for `\b\d+\s*kg\b`: a word boundary, a non-empty digit run,
optional whitespace, the literal `kg`, and a word boundary. -/
def hasKgAux : Option Char → List Char → Bool
  | _, [] => false
  | prev, c :: t =>
    (boundaryB prev &&
      (let s := c :: t
       let ds := s.takeWhile Char.isDigit
       !ds.isEmpty &&
         (let r := (s.drop ds.length).dropWhile isPySpace
          ("kg").toList.isPrefixOf r && boundaryA (r.drop 2))))
    || hasKgAux (some c) t

/-- Occurrence of `\b\d+\s*kg\b` in a character list. -/
def hasKg (s : List Char) : Bool :=
  hasKgAux none s

/-- Test for `^\w+\s+\w+$` (a two-word query).  Word characters and
whitespace are disjoint classes, so maximal munch is exact here. -/
def isTwoWords (s : List Char) : Bool :=
  let w1 := s.takeWhile isWordChar
  let r1 := s.drop w1.length
  let sp := r1.takeWhile isPySpace
  let r2 := r1.drop sp.length
  let w2 := r2.takeWhile isWordChar
  !w1.isEmpty && !sp.isEmpty && !w2.isEmpty && (r2.drop w2.length).isEmpty

/-- The `fast_patterns` set shared verbatim by `should_use_llm`
(ask_hybrid.py), `should_use_cloud_api` (ask_cloud.py) and
`should_use_conversational_api` (ask_conversational.py):
`\b(ketamine|txa|fentanyl|morphine)\b`, `\b\d+\s*kg\b`,
`\b(dose|dosage|mg|mcg)\b`, `^\w+\s+\w+$`.  `s` is the lower-cased
question. -/
def fastMatch (s : List Char) : Bool :=
  hasWord s "ketamine" || hasWord s "txa" || hasWord s "fentanyl" || hasWord s "morphine"
  || hasKg s
  || hasWord s "dose" || hasWord s "dosage" || hasWord s "mg" || hasWord s "mcg"
  || isTwoWords s

/-- The `llm_patterns` / `api_patterns` set of ask_hybrid.py and
ask_cloud.py. -/
def llmMatch (s : List Char) : Bool :=
  hasWord s "how" || hasWord s "why" || hasWord s "what" || hasWord s "explain"
  || hasWord s "describe"
  || hasWord s "protocol" || hasWord s "guideline" || hasWord s "management"
  || hasWord s "assessment" || hasWord s "treatment" || hasWord s "monitoring"
  || hasWord s "patient" || hasWord s "case" || hasWord s "scenario"

/-- The extra alternation `\b(help|advice|think)\b` that
ask_conversational.py adds to its conversational pattern set. -/
def convExtraMatch (s : List Char) : Bool :=
  hasWord s "help" || hasWord s "advice" || hasWord s "think"

/-- `should_use_llm(question, clinical_info)` from ask_hybrid.py: the fast
set is tested first and forces the fast path; the llm set is tested second;
the default is the fast path. -/
def should_use_llm (question : String) : Bool :=
  let s := pyLower question
  if fastMatch s then false
  else if llmMatch s then true
  else false

/-- `should_use_cloud_api(question, clinical_info)` from ask_cloud.py; the
pattern sets and the default are identical to `should_use_llm`. -/
def should_use_cloud_api (question : String) : Bool :=
  let s := pyLower question
  if fastMatch s then false
  else if llmMatch s then true
  else false

/-- `should_use_conversational_api(question, clinical_info)` from
ask_conversational.py: the same fast set is tested first; the conversational
set adds `help|advice|think`; the default is the conversational path. -/
def should_use_conversational_api (question : String) : Bool :=
  let s := pyLower question
  if fastMatch s then false
  else if llmMatch s || convExtraMatch s then true
  else true

/-- The canned apology string produced by the `except` arm of
`get_llm_response` (ask_hybrid.py) and `get_gemini_response`
(ask_cloud.py). -/
def troubleMsg : String := "I'm having trouble processing that request right now."

/-- The canned no-information answer of the hybrid main loop when the fast
lookup yields nothing and no local model is loaded. -/
def noInfoMsg : String := "I don't have specific information for that query."

/-- `get_llm_response` with the generation backend abstracted: `some text`
is a successful backend call, `none` is a raised exception or timeout, which
the function's `try/except` converts into the fixed apology string. -/
def llmWrapper (backend : Option String) : String :=
  match backend with
  | some t => t
  | none => troubleMsg

/-- Answer selection of the ask_hybrid.py main loop for one query:
`use_llm = should_use_llm(...) and llm is not None`; the llm path calls the
wrapped backend; the fast path falls back to the llm only when the fast
lookup returns nothing, and to the canned no-information message when no
llm is loaded. -/
def hybridAnswer (question : String) (clinical_info : List String)
    (llmLoaded : Bool) (backend : Option String) : String :=
  if should_use_llm question && llmLoaded then llmWrapper backend
  else
    match get_fast_response question clinical_info with
    | some r => r
    | none => if llmLoaded then llmWrapper backend else noInfoMsg

/-- Outcome of one iteration of the voice_calculator_assistant.py main loop
after speech capture, mirroring its `if weight and drug:` dispatch.  The
success case records the computed dose, unit and resolved indication (the
exact response wording is then produced by the AI/fallback formatter); the
other cases are the fixed clarification answers. -/
inductive VcOutcome where
  | dosed (dose : ℚ) (unit ind : String)
  | cantCalculate (drug : String)
  | askWeight
  | askDrug
  | askBoth
deriving DecidableEq

/-- Main-loop dispatch of voice_calculator_assistant.py: the calculator is
reached only when both a (truthy) weight and a drug were extracted;
otherwise the assistant answers with a clarification prompt, checking the
weight first.  `calculate_dose` receives the whole question as the
indication text, and its result is kept only when the dose is truthy. -/
def vcDispatch (question : String) : VcOutcome :=
  match vcExtractWeight question, vcExtractDrug question with
  | some n, some drug =>
    if n = 0 then .askWeight
    else
      match calculate_dose drug (n : ℚ) question with
      | some r => if r.1 = 0 then .cantCalculate drug else .dosed r.1 r.2.1 r.2.2
      | none => .cantCalculate drug
  | none, _ => .askWeight
  | some n, none => if n = 0 then .askWeight else .askDrug

/-- One conversation turn of the hybrid / cloud main loops. -/
def appendTurn (hist : List (String × String)) (q a : String) : List (String × String) :=
  let h := hist ++ [(q, a)]
  if 5 < h.length then h.drop 1 else h

/-- Conversation memory produced by a whole dialogue, starting empty,
mirroring the `conversation_history` updates of the ask_hybrid.py and
ask_cloud.py main loops. -/
def runDialogue (qas : List (String × String)) : List (String × String) :=
  qas.foldl (fun h p => appendTurn h p.1 p.2) []

/-- Number of lines of the docs file that `save_docs_text` (scripts/utils.py)
writes for a chunk list: the function writes `chunk + "\n"` per chunk, so a
chunk containing `k` newline characters contributes `k + 1` lines. -/
def docsLineCount (chunks : List String) : Nat :=
  (chunks.map (fun c => c.toList.count '\n' + 1)).sum

/-- Python list indexing `l[idx]` for the in-range indices that can reach it
in `search_clinical_info`: non-negative indices address from the front,
negative indices address from the back; an index below `-len(l)` would raise
`IndexError` and is modelled as `none` (unreachable for FAISS outputs). -/
def pyGet (l : List String) (idx : Int) : Option String :=
  if 0 ≤ idx then l.get? idx.toNat
  else if 0 ≤ (l.length : Int) + idx then l.get? ((l.length : Int) + idx).toNat
  else none

/-- The result-collection loop of `search_clinical_info` (ask_hybrid.py,
ask_cloud.py) and of `query` (jts_service_optimized.py):
`for idx in indices[0]: if idx < len(metadata): relevant_info.append(metadata[idx])`. -/
def searchFilter (metadata : List String) (indices : List Int) : List String :=
  indices.filterMap (fun idx =>
    if idx < (metadata.length : Int) then pyGet metadata idx else none)

/-- Index rows returned by a FAISS `index.search` call that found the listed
real positions: FAISS pads the result up to `k` entries with `-1` when the
index holds fewer than `k` vectors (documented FAISS behaviour of its
labels output). -/
def faissPad (found : List Nat) (k : Nat) : List Int :=
  found.map (fun n => (n : Int)) ++ List.replicate (k - found.length) (-1)

example : vcDispatch "txa for trauma" = .askWeight := by decide
example : appendTurn [("a", "b")] "c" "d" = [("a", "b"), ("c", "d")] := by decide
example : searchFilter ["chunk0"] (faissPad [0] 2) = ["chunk0", "chunk0"] := by decide
example : docsLineCount ["a\nb"] = 2 := by decide

/-- Elements of a `takeWhile` satisfy the predicate. -/
theorem mem_takeWhile_sat {p : Char → Bool} : ∀ (l : List Char) (c : Char),
    c ∈ l.takeWhile p → p c = true := by
  intro l
  induction l with
  | nil => intro c hc; simp [List.takeWhile] at hc
  | cons a t ih =>
    intro c hc
    rw [List.takeWhile_cons] at hc
    by_cases hp : p a
    · simp [hp] at hc
      rcases hc with h | h
      · exact h ▸ hp
      · exact ih c h
    · simp [hp] at hc

/-- When every element of the first list satisfies the predicate,
`takeWhile` passes through an appended list. -/
theorem takeWhile_all_append {p : Char → Bool} :
    ∀ (a l : List Char), (∀ c ∈ a, p c = true) →
    (a ++ l).takeWhile p = a ++ l.takeWhile p := by
  intro a
  induction a with
  | nil => intro l _; simp
  | cons c t ih =>
    intro l ha
    have hc : p c = true := ha c (by simp)
    simp only [List.cons_append, List.takeWhile_cons, hc, if_true]
    rw [ih l (fun x hx => ha x (by simp [hx]))]

/-- An append never loses length: one `appendTurn` on a memory within the
cap keeps it within the cap. -/
theorem appendTurn_length_le (h : List (String × String)) (q a : String)
    (hle : h.length ≤ 5) : (appendTurn h q a).length ≤ 5 := by
  simp only [appendTurn, List.length_append, List.length_cons, List.length_nil]
  split <;>
    simp only [List.length_drop, List.length_append, List.length_cons, List.length_nil] <;>
    omega

/-- The whole-dialogue invariant: starting within the cap, the memory stays
within the cap. -/
theorem foldl_appendTurn_length (qas : List (String × String)) :
    ∀ h : List (String × String), h.length ≤ 5 →
    (qas.foldl (fun h p => appendTurn h p.1 p.2) h).length ≤ 5 := by
  induction qas with
  | nil => intro h hh; simpa using hh
  | cons p rest ih =>
    intro h hh
    exact ih _ (appendTurn_length_le h p.1 p.2 hh)

/-- Chunks free of newline characters contribute exactly one docs line
each. -/
theorem docsLineCount_no_newline :
    ∀ chunks : List String, (∀ c ∈ chunks, ('\n') ∉ c.toList) →
    docsLineCount chunks = chunks.length := by
  intro chunks
  induction chunks with
  | nil => intro _; rfl
  | cons c t ih =>
    intro hc
    have h0 : c.toList.count '\n' = 0 :=
      List.count_eq_zero.mpr (hc c (by simp))
    have ht := ih (fun x hx => hc x (by simp [hx]))
    simp only [docsLineCount, List.map_cons, List.sum_cons, List.length_cons, h0] at *
    omega

/-- C3 (confirmed): for every weight-scaled dosing rule with a configured
`max` ceiling and every weight whose computed dose `d * w` exceeds the
ceiling, `calculate_dose` returns exactly the ceiling with the rule's unit,
and the clamping function is idempotent. -/
theorem c3_ceiling_clamped (drug indication : String) (w : ℚ) (i : String)
    (p : Protocol) (m : ℚ)
    (hr : resolveRule drug indication = some (i, p)) (hf : p.fixed = false)
    (hm : p.max = some m) (hgt : m < p.dose * w) :
    calculate_dose drug w indication = some (m, p.unit, i) ∧
      ∀ x : ℚ, pyClamp m (pyClamp m x) = pyClamp m x := by
  constructor
  · rw [calculate_dose_resolveRule, hr]
    simp [hf, hm, pyClamp, hgt]
  · intro x
    by_cases hx : x > m
    · simp [pyClamp, hx, lt_irrefl]
    · simp [pyClamp, hx]

/-- Witness for C3: ketamine RSI at 200 kg computes 300 mg/kg-scaled, above
the 200 ceiling, and the returned dose is exactly 200. -/
theorem c3_witness :
    calculate_dose "ketamine" (200 : ℚ) "rsi" = some (200, "mg/kg", "rsi") :=
  (c3_ceiling_clamped "ketamine" "rsi" 200 "rsi"
    { dose := 1.5, unit := "mg/kg", max := some 200 } 200
    (by rfl) (by rfl) (by rfl) (by norm_num)).1

/-- C4 (amended, part that holds): a dosing rule with `fixed = true` makes
`calculate_dose` weight-invariant, and a TXA-for-trauma query that does
carry a weight reaches the calculator and yields exactly the fixed
1000 mg. -/
theorem c4_fixed_dose_invariant :
    (∀ (drug indication : String) (w1 w2 : ℚ) (i : String) (p : Protocol),
      resolveRule drug indication = some (i, p) → p.fixed = true →
      calculate_dose drug w1 indication = calculate_dose drug w2 indication) ∧
    vcDispatch "txa for trauma 80 kg patient" = .dosed 1000 "mg" "trauma" := by
  constructor
  · intro drug indication w1 w2 i p hr hf
    rw [calculate_dose_resolveRule, calculate_dose_resolveRule, hr]
    simp [hf]
  · decide

/-- Witness for C4: the fixed TXA rule gives the same result at 30 kg and at
250 kg. -/
theorem c4_witness :
    calculate_dose "tranexamic acid" (30 : ℚ) "trauma" =
      calculate_dose "tranexamic acid" (250 : ℚ) "trauma" :=
  c4_fixed_dose_invariant.1 "tranexamic acid" "trauma" 30 250 "trauma"
    { dose := 1000, unit := "mg", fixed := true } (by rfl) (by rfl)

/-- Counterexample for C4 as stated: the query `"TXA for trauma"` carries no
weight, so the voice-calculator main loop never reaches the calculator and
answers with the weight-clarification prompt instead of 1000 mg. -/
theorem c4_counterexample :
    vcDispatch "txa for trauma" = .askWeight ∧
    VcOutcome.askWeight ≠ .dosed 1000 "mg" "trauma" := by
  decide

/-- C5 (the claim states the intended pipeline contract; the committed
script cannot run): scripts/build_index.py as committed is not parseable
Python — the body of the `try` block of its PDF branch is dedented — so no
indexing run ever executes and no artifacts are produced.  The one runnable
piece of the persistence path, `save_docs_text` (scripts/utils.py), writes
`chunk + "\n"` per chunk, so its docs file has one line per chunk exactly
when no chunk text contains a newline: a chunk `"a\nb"` already yields two
lines for one chunk. -/
theorem c5_save_docs_lines :
    docsLineCount ["a\nb"] = 2 ∧ (2 : Nat) ≠ 1 ∧
    (∀ chunks : List String, (∀ c ∈ chunks, ('\n') ∉ c.toList) →
      docsLineCount chunks = chunks.length) :=
  ⟨by decide, by decide, docsLineCount_no_newline⟩

/-- Witness for C5: newline-free chunks give one docs line each. -/
theorem c5_save_docs_witness :
    docsLineCount ["hello", "world"] = 2 :=
  c5_save_docs_lines.2.2 ["hello", "world"] (by decide)

/-- C6 (the claim is right, the code slips): on an index holding one vector,
a `k = 2` search returns the FAISS rows `[0, -1]`; the guard
`idx < len(metadata)` lets the `-1` padding through, so `metadata[-1]`
(Python negative indexing, i.e. the last chunk) is appended again and the
caller receives two entries instead of the one available. -/
theorem c6_negative_index_duplicates :
    faissPad [0] 2 = [0, -1] ∧
    searchFilter ["chunk0"] (faissPad [0] 2) = ["chunk0", "chunk0"] ∧
    (searchFilter ["chunk0"] (faissPad [0] 2)).length ≠ 1 := by
  decide

/-- C8 (confirmed): the conversation memory never exceeds five turns after
any dialogue; an append within the cap preserves the cap; below the cap an
append is a plain enqueue; at the cap the oldest turn (the head) is evicted
and the order of the remaining turns is preserved. -/
theorem c8_memory_capped :
    (∀ qas : List (String × String), (runDialogue qas).length ≤ 5) ∧
    (∀ (h : List (String × String)) (q a : String), h.length ≤ 5 →
      (appendTurn h q a).length ≤ 5) ∧
    (∀ (h : List (String × String)) (q a : String), h.length ≤ 4 →
      appendTurn h q a = h ++ [(q, a)]) ∧
    (∀ (h : List (String × String)) (q a : String), h.length = 5 →
      appendTurn h q a = h.tail ++ [(q, a)]) := by
  refine ⟨?_, appendTurn_length_le, ?_, ?_⟩
  · intro qas
    exact foldl_appendTurn_length qas [] (by simp)
  · intro h q a hle
    have hc : ¬ 5 < (h ++ [(q, a)]).length := by
      simp only [List.length_append, List.length_cons, List.length_nil]
      omega
    simp only [appendTurn, if_neg hc]
  · intro h q a hlen
    have hc : 5 < (h ++ [(q, a)]).length := by
      simp only [List.length_append, List.length_cons, List.length_nil]
      omega
    simp only [appendTurn, if_pos hc]
    rw [List.drop_append_of_le_length (by omega), List.drop_one]

/-- Witness for C8: appending a sixth turn to a full memory evicts exactly
the first turn. -/
theorem c8_witness :
    appendTurn [("q1", "a1"), ("q2", "a2"), ("q3", "a3"), ("q4", "a4"), ("q5", "a5")]
      "q6" "a6" =
    [("q2", "a2"), ("q3", "a3"), ("q4", "a4"), ("q5", "a5"), ("q6", "a6")] := by
  have h := c8_memory_capped.2.2.2
    [("q1", "a1"), ("q2", "a2"), ("q3", "a3"), ("q4", "a4"), ("q5", "a5")]
    "q6" "a6" (by rfl)
  simpa using h

/-- C7 (amended): failures of the generation backend are contained — every
tier produces a textual answer — but there is no fallback-on-failure from
the model tier to the fast tier: a failing backend on the llm path yields
the wrapper's fixed apology string; the only fallback goes from the fast
path to the llm tier when the fast lookup yields nothing, and the canned
no-information message appears only when no llm is loaded. -/
theorem c7_failure_containment :
    (∀ (q : String) (ci : List String), should_use_llm q = true →
      hybridAnswer q ci true none = troubleMsg) ∧
    (∀ (q : String) (ci : List String), should_use_llm q = false →
      get_fast_response q ci = none → hybridAnswer q ci true none = troubleMsg) ∧
    (∀ (q : String) (ci : List String), should_use_llm q = false →
      get_fast_response q ci = none → hybridAnswer q ci false none = noInfoMsg) := by
  refine ⟨?_, ?_, ?_⟩
  · intro q ci hq
    simp [hybridAnswer, hq, llmWrapper]
  · intro q ci hq hf
    simp [hybridAnswer, hq, hf, llmWrapper]
  · intro q ci hq hf
    simp [hybridAnswer, hq, hf]

/-- Witness for C7: a conversational query with a failing backend gets the
apology string; a patternless query with no fast answer and no llm gets the
canned no-information message. -/
theorem c7_witness :
    hybridAnswer "explain the current protocol" [] true none = troubleMsg ∧
    hybridAnswer "zzz qqq aaa" [] false none = noInfoMsg :=
  ⟨c7_failure_containment.1 "explain the current protocol" [] (by decide),
   c7_failure_containment.2.2 "zzz qqq aaa" [] (by decide) (by decide)⟩

/-- Counterexample for C7 as stated: on the query
`"explain tranexamic acid"` the router picks the model path; when the
backend raises, the answer is the apology constant even though the fast
tier had a non-empty answer available — the claimed model-to-fast fallback
does not exist. -/
theorem c7_counterexample :
    should_use_llm "explain tranexamic acid" = true ∧
    hybridAnswer "explain tranexamic acid" [] true none = troubleMsg ∧
    get_fast_response "explain tranexamic acid" [] =
      some "TXA: 1g IV bolus, then 1g over 8h" ∧
    troubleMsg ≠ "TXA: 1g IV bolus, then 1g over 8h" := by
  decide

/-- C9 (confirmed): any query matching the fast pattern set is routed away
from the model paths by all three router variants — the fast set is tested
before the conversational set — and the hybrid main loop then returns the
fast lookup's answer whenever one exists, regardless of backend
availability. -/
theorem c9_fast_set_priority (question : String)
    (hfast : fastMatch (pyLower question) = true) :
    should_use_llm question = false ∧
    should_use_cloud_api question = false ∧
    should_use_conversational_api question = false ∧
    (∀ (ci : List String) (r : String) (llmLoaded : Bool) (backend : Option String),
      get_fast_response question ci = some r →
      hybridAnswer question ci llmLoaded backend = r) := by
  refine ⟨?_, ?_, ?_, ?_⟩
  · simp [should_use_llm, hfast]
  · simp [should_use_cloud_api, hfast]
  · simp [should_use_conversational_api, hfast]
  · intro ci r llmLoaded backend hr
    simp [hybridAnswer, should_use_llm, hfast, hr]

/-- Witness for C9: a query containing both a fast drug keyword and
conversational keywords is still answered by the fast path. -/
theorem c9_witness :
    should_use_llm "explain ketamine rsi dose" = false ∧
    hybridAnswer "explain ketamine rsi dose" [] true none = "Ketamine RSI: 1-2 mg/kg IV" :=
  ⟨(c9_fast_set_priority "explain ketamine rsi dose" (by decide)).1,
   (c9_fast_set_priority "explain ketamine rsi dose" (by decide)).2.2.2 [] _ true none
     (by decide)⟩

/-- C1 (amended): both extractors try their ordered pattern lists against
the lower-cased query and yield `none` when no pattern matches; in the
hybrid variant the pound conversion (× 0.453592) is applied exactly when the
lower-cased query contains `'pound'` or `'lb'` as a substring — a property
of the query text, not of which pattern matched — while the
voice-calculator variant applies no conversion at all. -/
theorem c1_conversion_characterization :
    (∀ s : List Char, extractWeightL s = (hyFirstCaptureL s).map (fun ds =>
      if isSubstr "pound" s || isSubstr "lb" s then (natOfDigits ds : ℚ) * lbFactor
      else (natOfDigits ds : ℚ))) ∧
    (∀ s : List Char, vcWeightL s = (vcFirstCaptureL s).map (fun ds => natOfDigits ds)) := by
  constructor
  · intro s
    exact extractLoopHy_eq_captureLoop hybridWeightPatterns s
  · intro s
    unfold vcWeightL
    cases vcFirstCaptureL s <;> rfl

/-- Counterexample for C1 as stated: in `"100 kg albuterol"` the kg pattern
matches (capture `100`), yet the pound conversion fires because `'lb'` is a
substring of `albuterol`, so the result is not 100; and the
voice-calculator extractor returns pounds unconverted. -/
theorem c1_counterexample :
    searchNum [["kg"]] (pyLower "100 kg albuterol") = some ['1', '0', '0'] ∧
    extract_weight "100 kg albuterol" = some (100 * lbFactor) ∧
    (100 * lbFactor : ℚ) ≠ 100 ∧
    vcExtractWeight "50 pounds patient" = some 50 ∧
    ((50 : ℚ) ≠ 50 * lbFactor) := by
  refine ⟨by decide, ?_, by norm_num [lbFactor], by decide, by norm_num [lbFactor]⟩
  have hc : captureLoop hybridWeightPatterns (pyLower "100 kg albuterol") =
      some ['1', '0', '0'] := by decide
  have hf : (isSubstr "pound" (pyLower "100 kg albuterol")
      || isSubstr "lb" (pyLower "100 kg albuterol")) = true := by decide
  have hn : natOfDigits ['1', '0', '0'] = 100 := by decide
  rw [extract_weight, extractWeightL, extractLoopHy_eq_captureLoop, hc]
  simp only [Option.map_some, hf, if_true]
  norm_num [hn]

/-- C2 (amended): for a weight-scaled rule whose ceiling is not reached,
`calculate_dose` returns the per-kg dose times the weight exactly — with no
rounding — together with the rule's unit; the rounding to one decimal place
appears only in the `calculate_dosage` string helper of the ask scripts,
which rounds each scaled number of the base dosage string. -/
theorem c2_scaled_dose_unrounded :
    (∀ (drug indication : String) (w : ℚ) (i : String) (p : Protocol),
      resolveRule drug indication = some (i, p) → p.fixed = false →
      (∀ m, p.max = some m → p.dose * w ≤ m) →
      calculate_dose drug w indication = some (p.dose * w, p.unit, i)) ∧
    (∀ (base : String) (w n : ℚ), findNumbers base.toList = [n] →
      calculate_dosage base w = .single (pyRound1 (n * w))) := by
  constructor
  · intro drug indication w i p hr hf hle
    rw [calculate_dose_resolveRule, hr]
    cases hm : p.max with
    | none => simp [hf, hm]
    | some m =>
      have h1 : ¬ (p.dose * w > m) := not_lt.mpr (hle m hm)
      simp [hf, hm, pyClamp, h1]
  · intro base w n hn
    unfold calculate_dosage
    rw [hn]

/-- Witness for C2: ketamine RSI at 80 kg yields exactly 1.5 × 80 under the
ceiling, and a one-number base string rounds its scaled value. -/
theorem c2_witness :
    calculate_dose "ketamine" (80 : ℚ) "rsi" = some (1.5 * 80, "mg/kg", "rsi") ∧
    calculate_dosage "2 mg/kg" (3 : ℚ) = .single (pyRound1 (2 * 3)) := by
  constructor
  · exact c2_scaled_dose_unrounded.1 "ketamine" "rsi" 80 "rsi"
      { dose := 1.5, unit := "mg/kg", max := some 200 } (by rfl) (by rfl)
      (fun m hm => by
        have h200 : some (200 : ℚ) = some m := hm
        rw [← Option.some.inj h200]
        norm_num)
  · exact c2_scaled_dose_unrounded.2 "2 mg/kg" 3 2 (by decide)

/-- Counterexample for C2 as stated: ketamine RSI at weight 1/4 computes
dose 3/8 = 0.375, while rounding to one decimal gives 0.4 — the calculator
returns the unrounded product, so the claimed equality with
`round(d * w, 1)` fails. -/
theorem c2_counterexample :
    calculate_dose "ketamine" (1/4 : ℚ) "rsi" = some (3/8, "mg/kg", "rsi") ∧
    pyRound1 (3/8 : ℚ) = 2/5 ∧ ((3/8 : ℚ) ≠ 2/5) := by
  refine ⟨?_, ?_, by norm_num⟩
  · have hres : resolveRule "ketamine" "rsi" =
        some ("rsi", { dose := 1.5, unit := "mg/kg", max := some 200 }) := rfl
    rw [calculate_dose_resolveRule, hres]
    simp only [Option.map_some']
    norm_num [pyClamp]
  · have hfl : ⌊(15/4 : ℚ)⌋ = 3 := by
      rw [Int.floor_eq_iff]
      norm_num
    unfold pyRound1 roundHalfEven
    rw [show (3/8 : ℚ) * 10 = 15/4 by norm_num, hfl]
    norm_num

/-- Characterization of a successful `numThenAt`: the capture is the maximal
digit run at the current position and is non-empty. -/
theorem numThenAt_some (paths : List (List String)) (s ds : List Char)
    (h : numThenAt paths s = some ds) :
    ds = s.takeWhile Char.isDigit ∧ ds ≠ [] := by
  simp only [numThenAt] at h
  by_cases he : (s.takeWhile Char.isDigit).isEmpty
  · rw [if_pos he] at h
    exact absurd h (by simp)
  · rw [if_neg he] at h
    by_cases ha : paths.any (fun p =>
        matchPath p (s.drop (s.takeWhile Char.isDigit).length)) = true
    · rw [if_pos ha] at h
      have heq := Option.some.inj h
      refine ⟨heq.symm, ?_⟩
      intro hnil
      exact he (List.isEmpty_iff.mpr (heq.trans hnil))
    · rw [if_neg ha] at h
      exact absurd h (by simp)

/-- Every capture of `searchNum` is a non-empty all-digit contiguous run of
the scanned text. -/
theorem searchNum_capture (paths : List (List String)) :
    ∀ (s ds : List Char), searchNum paths s = some ds →
    ds ≠ [] ∧ (∀ c ∈ ds, c.isDigit = true) ∧ ds <:+: s := by
  intro s
  induction s with
  | nil => intro ds h; simp [searchNum] at h
  | cons c t ih =>
    intro ds h
    cases hn : numThenAt paths (c :: t) with
    | some ds' =>
      simp only [searchNum, hn] at h
      obtain rfl := Option.some.inj h
      obtain ⟨hds, hne⟩ := numThenAt_some paths (c :: t) ds' hn
      refine ⟨hne, ?_, ?_⟩
      · intro x hx
        exact mem_takeWhile_sat (c :: t) x (hds ▸ hx)
      · rw [hds]
        exact ( List.takeWhile_prefix Char.isDigit).isInfix
    | none =>
      simp only [searchNum, hn] at h
      obtain ⟨h1, h2, h3⟩ := ih ds h
      exact ⟨h1, h2, List.infix_cons h3⟩

/-- Every capture of `weighAt` is a non-empty all-digit contiguous run of
the scanned text. -/
theorem weighAt_some (s ds : List Char) (h : weighAt s = some ds) :
    ds ≠ [] ∧ (∀ c ∈ ds, c.isDigit = true) ∧ ds <:+: s := by
  simp only [weighAt] at h
  by_cases hw : ("weigh").toList.isPrefixOf s
  · rw [if_pos hw] at h
    set r0 := s.drop 5 with hr0
    set r1 := (match r0 with
      | 's' :: r2 => r2
      | _ => r0) with hr1
    by_cases he : ((r1.dropWhile isPySpace).takeWhile Char.isDigit).isEmpty
    · rw [if_pos he] at h
      exact absurd h (by simp)
    · rw [if_neg he] at h
      have heq := Option.some.inj h
      have hr1s : r1 <:+ r0 := by
        rw [hr1]
        cases r0 with
        | nil => exact List.suffix_refl _
        | cons x xs =>
          by_cases hx : x = 's'
          · subst hx
            exact (List.suffix_cons 's' xs)
          · simp_all
      refine ⟨?_, ?_, ?_⟩
      · intro hnil
        exact he (List.isEmpty_iff.mpr (heq.trans hnil))
      · intro x hx
        exact mem_takeWhile_sat _ x (heq ▸ hx)
      · rw [← heq]
        have h1 : (r1.dropWhile isPySpace).takeWhile Char.isDigit <+: r1.dropWhile isPySpace :=
          List.takeWhile_prefix Char.isDigit
        have h2 : r1.dropWhile isPySpace <:+ r1 := List.dropWhile_suffix isPySpace
        have h3 : r0 <:+ s := List.drop_suffix 5 s
        exact h1.isInfix.trans (h2.isInfix.trans (hr1s.isInfix.trans h3.isInfix))
  · rw [if_neg hw] at h
    exact absurd h (by simp)

/-- Every capture of `searchWeighNum` is a non-empty all-digit contiguous
run of the scanned text. -/
theorem searchWeighNum_capture :
    ∀ (s ds : List Char), searchWeighNum s = some ds →
    ds ≠ [] ∧ (∀ c ∈ ds, c.isDigit = true) ∧ ds <:+: s := by
  intro s
  induction s with
  | nil => intro ds h; simp [searchWeighNum] at h
  | cons c t ih =>
    intro ds h
    cases hn : weighAt (c :: t) with
    | some ds' =>
      simp only [searchWeighNum, hn] at h
      obtain rfl := Option.some.inj h
      exact weighAt_some (c :: t) ds' hn
    | none =>
      simp only [searchWeighNum, hn] at h
      obtain ⟨h1, h2, h3⟩ := ih ds h
      exact ⟨h1, h2, List.infix_cons h3⟩

/-- Every capture of `litNumAt` is a non-empty all-digit contiguous run of
the scanned text. -/
theorem litNumAt_some (pre : String) (paths : List (List String)) (s ds : List Char)
    (h : litNumAt pre paths s = some ds) :
    ds ≠ [] ∧ (∀ c ∈ ds, c.isDigit = true) ∧ ds <:+: s := by
  simp only [litNumAt] at h
  by_cases hw : pre.toList.isPrefixOf s
  · rw [if_pos hw] at h
    set r := (s.drop pre.toList.length).dropWhile isPySpace with hr
    by_cases he : (r.takeWhile Char.isDigit).isEmpty
    · rw [if_pos he] at h
      exact absurd h (by simp)
    · rw [if_neg he] at h
      by_cases ha : paths.any (fun p =>
          matchPath p (r.drop (r.takeWhile Char.isDigit).length)) = true
      · rw [if_pos ha] at h
        have heq := Option.some.inj h
        refine ⟨?_, ?_, ?_⟩
        · intro hnil
          exact he (List.isEmpty_iff.mpr (heq.trans hnil))
        · intro x hx
          exact mem_takeWhile_sat _ x (heq ▸ hx)
        · rw [← heq]
          have h1 : r.takeWhile Char.isDigit <+: r := List.takeWhile_prefix Char.isDigit
          have h2 : r <:+ s.drop pre.toList.length := by
            rw [hr]
            exact List.dropWhile_suffix isPySpace
          have h3 : s.drop pre.toList.length <:+ s := List.drop_suffix _ s
          exact h1.isInfix.trans (h2.isInfix.trans h3.isInfix)
      · rw [if_neg ha] at h
        exact absurd h (by simp)
  · rw [if_neg hw] at h
    exact absurd h (by simp)

/-- Every capture of `searchLitNum` is a non-empty all-digit contiguous run
of the scanned text. -/
theorem searchLitNum_capture (pre : String) (paths : List (List String)) :
    ∀ (s ds : List Char), searchLitNum pre paths s = some ds →
    ds ≠ [] ∧ (∀ c ∈ ds, c.isDigit = true) ∧ ds <:+: s := by
  intro s
  induction s with
  | nil => intro ds h; simp [searchLitNum] at h
  | cons c t ih =>
    intro ds h
    cases hn : litNumAt pre paths (c :: t) with
    | some ds' =>
      simp only [searchLitNum, hn] at h
      obtain rfl := Option.some.inj h
      exact litNumAt_some pre paths (c :: t) ds' hn
    | none =>
      simp only [searchLitNum, hn] at h
      obtain ⟨h1, h2, h3⟩ := ih ds h
      exact ⟨h1, h2, List.infix_cons h3⟩

/-- Every capture of the hybrid pattern loop is a non-empty all-digit
contiguous run of the scanned text. -/
theorem captureLoop_capture :
    ∀ (pats : List (List (List String))) (s ds : List Char),
    captureLoop pats s = some ds →
    ds ≠ [] ∧ (∀ c ∈ ds, c.isDigit = true) ∧ ds <:+: s := by
  intro pats
  induction pats with
  | nil => intro s ds h; simp [captureLoop] at h
  | cons p rest ih =>
    intro s ds h
    cases hn : searchNum p s with
    | some ds' =>
      simp only [captureLoop, hn] at h
      obtain rfl := Option.some.inj h
      exact searchNum_capture p s ds' hn
    | none =>
      simp only [captureLoop, hn] at h
      exact ih s ds h

/-- Every capture of the voice-calculator pattern chain is a non-empty
all-digit contiguous run of the scanned text. -/
theorem vcFirstCaptureL_capture (s ds : List Char)
    (h : vcFirstCaptureL s = some ds) :
    ds ≠ [] ∧ (∀ c ∈ ds, c.isDigit = true) ∧ ds <:+: s := by
  simp only [vcFirstCaptureL] at h
  cases h1 : searchNum vcKgAlts s with
  | some d => rw [h1] at h; exact searchNum_capture _ s ds (h1.trans h)
  | none =>
  rw [h1] at h
  cases h2 : searchNum vcLbAlts s with
  | some d => rw [h2] at h; exact searchNum_capture _ s ds (h2.trans h)
  | none =>
  rw [h2] at h
  cases h3 : searchWeighNum s with
  | some d => rw [h3] at h; exact searchWeighNum_capture s ds (h3.trans h)
  | none =>
  rw [h3] at h
  cases h4 : searchNum vcKgPatientAlts s with
  | some d => rw [h4] at h; exact searchNum_capture _ s ds (h4.trans h)
  | none =>
  rw [h4] at h
  exact searchLitNum_capture "patient" vcKgAlts s ds h

/-- At the start of an all-digit run followed by ` kg`, the kg pattern
matches and captures the whole run. -/
theorem numThenAt_kg_digits (b : List Char) (hb : ∀ c ∈ b, c.isDigit = true)
    (hbne : b ≠ []) :
    numThenAt [["kg"]] (b ++ [' ', 'k', 'g']) = some b := by
  have ht : (b ++ [' ', 'k', 'g']).takeWhile Char.isDigit = b := by
    rw [takeWhile_all_append b _ hb,
      show ([' ', 'k', 'g'].takeWhile Char.isDigit) = [] from rfl, List.append_nil]
  have hne : b.isEmpty = false := by
    cases b with
    | nil => exact absurd rfl hbne
    | cons x xs => rfl
  have hm : ([["kg"]].any (fun p => matchPath p [' ', 'k', 'g'])) = true := by decide
  simp only [numThenAt, ht, List.drop_left, hne, hm]
  simp

/-- Searching an all-digit run followed by ` kg` captures the run at its
first character. -/
theorem searchNum_kg_run (b : List Char) (hb : ∀ c ∈ b, c.isDigit = true)
    (hbne : b ≠ []) :
    searchNum [["kg"]] (b ++ [' ', 'k', 'g']) = some b := by
  cases b with
  | nil => exact absurd rfl hbne
  | cons d b' =>
    have h := numThenAt_kg_digits (d :: b') hb hbne
    rw [List.cons_append] at h
    rw [List.cons_append]
    simp only [searchNum, h]

/-- In a query of the shape `digits.digits kg`, the kg pattern skips the
digits before the decimal point (their run is interrupted by `'.'`, which
neither whitespace nor the unit literal can absorb) and captures exactly the
digit run after the point. -/
theorem searchNum_kg_decimal (a b : List Char)
    (ha : ∀ c ∈ a, c.isDigit = true) (hb : ∀ c ∈ b, c.isDigit = true)
    (hbne : b ≠ []) :
    searchNum [["kg"]] (a ++ '.' :: (b ++ [' ', 'k', 'g'])) = some b := by
  induction a with
  | nil =>
    have hn : numThenAt [["kg"]] ('.' :: (b ++ [' ', 'k', 'g'])) = none := by
      simp [numThenAt, List.takeWhile_cons, show Char.isDigit '.' = false from rfl]
    simp only [List.nil_append, searchNum, hn]
    exact searchNum_kg_run b hb hbne
  | cons c a' ih =>
    have ha' : ∀ x ∈ a', x.isDigit = true := fun x hx => ha x (by simp [hx])
    have htw : ((c :: a') ++ ('.' :: (b ++ [' ', 'k', 'g']))).takeWhile Char.isDigit
        = c :: a' := by
      rw [takeWhile_all_append _ _ (fun x hx => ha x hx)]
      rw [show (('.' :: (b ++ [' ', 'k', 'g'])).takeWhile Char.isDigit) = [] from by
        simp [List.takeWhile_cons, show Char.isDigit '.' = false from rfl]]
      simp
    have hmp : matchPath ["kg"] ('.' :: (b ++ [' ', 'k', 'g'])) = false := rfl
    have hn : numThenAt [["kg"]] ((c :: a') ++ ('.' :: (b ++ [' ', 'k', 'g']))) = none := by
      simp only [numThenAt, htw, List.drop_left]
      simp [hmp]
    rw [List.cons_append] at hn
    rw [List.cons_append]
    simp only [searchNum, hn]
    exact ih ha'

/-- A one-character needle occurring as a substring is a member of the
haystack. -/
theorem listSub_head_mem (c : Char) (n hay : List Char)
    (h : listSub (c :: n) hay = true) : c ∈ hay := by
  unfold listSub at h
  obtain ⟨t, ht, hp⟩ := List.any_eq_true.mp h
  cases t with
  | nil => simp [List.isPrefixOf] at hp
  | cons x xs =>
    have hcx : c = x := by
      simp only [List.isPrefixOf, Bool.and_eq_true, beq_iff_eq] at hp
      exact hp.1
    have hsuffix : (x :: xs) <:+ hay := by
      rw [← List.mem_tails]
      exact ht
    exact hsuffix.subset (by simp [hcx])

/-- The characters of a `digits.digits kg` query. -/
theorem decimal_query_chars (a b : List Char)
    (ha : ∀ c ∈ a, c.isDigit = true) (hb : ∀ c ∈ b, c.isDigit = true) :
    ∀ x ∈ a ++ '.' :: (b ++ [' ', 'k', 'g']),
      x.isDigit = true ∨ x = '.' ∨ x = ' ' ∨ x = 'k' ∨ x = 'g' := by
  intro x hx
  simp only [List.mem_append, List.mem_cons] at hx
  rcases hx with hx | hx | hx
  · exact Or.inl (ha x hx)
  · exact Or.inr (Or.inl hx)
  · rcases hx with hx | hx
    · exact Or.inl (hb x hx)
    · simp only [List.mem_cons, List.not_mem_nil, or_false] at hx
      rcases hx with hx | hx | hx
      · exact Or.inr (Or.inr (Or.inl hx))
      · exact Or.inr (Or.inr (Or.inr (Or.inl hx)))
      · exact Or.inr (Or.inr (Or.inr (Or.inr hx)))

/-- No pound conversion can fire on a `digits.digits kg` query: it contains
neither `'p'` nor `'l'`. -/
theorem decimal_query_no_lb (a b : List Char)
    (ha : ∀ c ∈ a, c.isDigit = true) (hb : ∀ c ∈ b, c.isDigit = true) :
    (isSubstr "pound" (a ++ '.' :: (b ++ [' ', 'k', 'g']))
      || isSubstr "lb" (a ++ '.' :: (b ++ [' ', 'k', 'g']))) = false := by
  have hmem := decimal_query_chars a b ha hb
  have hp : isSubstr "pound" (a ++ '.' :: (b ++ [' ', 'k', 'g'])) = false := by
    cases hc : isSubstr "pound" (a ++ '.' :: (b ++ [' ', 'k', 'g'])) with
    | false => rfl
    | true =>
      have := listSub_head_mem 'p' _ _ hc
      rcases hmem 'p' this with h | h | h | h | h <;> simp_all
  have hl : isSubstr "lb" (a ++ '.' :: (b ++ [' ', 'k', 'g'])) = false := by
    cases hc : isSubstr "lb" (a ++ '.' :: (b ++ [' ', 'k', 'g'])) with
    | false => rfl
    | true =>
      have := listSub_head_mem 'l' _ _ hc
      rcases hmem 'l' this with h | h | h | h | h <;> simp_all
  rw [hp, hl]
  rfl

/-- C10 (confirmed): the integer-only capture groups latch onto the
unbroken digit run immediately before the unit, so `"80.5 kg"` extracts 5
(the digits after the decimal point) in both variants rather than 80.5 or
null; in general a `digits.digits kg` query extracts exactly the digits
after the point, and every capture either extractor can produce is a
non-empty contiguous all-digit run of the query. -/
theorem c10_decimal_weight_fragment :
    extract_weight "80.5 kg" = some 5 ∧
    vcExtractWeight "80.5 kg" = some 5 ∧
    (∀ a b : List Char, (∀ c ∈ a, c.isDigit = true) → (∀ c ∈ b, c.isDigit = true) →
      b ≠ [] →
      extractWeightL (a ++ '.' :: (b ++ [' ', 'k', 'g'])) = some (natOfDigits b)) ∧
    (∀ s ds : List Char, hyFirstCaptureL s = some ds →
      ds ≠ [] ∧ (∀ c ∈ ds, c.isDigit = true) ∧ ds <:+: s) ∧
    (∀ s ds : List Char, vcFirstCaptureL s = some ds →
      ds ≠ [] ∧ (∀ c ∈ ds, c.isDigit = true) ∧ ds <:+: s) := by
  refine ⟨by decide, by decide, ?_, ?_, vcFirstCaptureL_capture⟩
  · intro a b ha hb hbne
    have hsearch := searchNum_kg_decimal a b ha hb hbne
    have hflag := decimal_query_no_lb a b ha hb
    rw [extractWeightL, extractLoopHy_eq_captureLoop]
    rw [show captureLoop hybridWeightPatterns (a ++ '.' :: (b ++ [' ', 'k', 'g']))
        = some b from by simp only [hybridWeightPatterns, captureLoop, hsearch]]
    simp only [Option.map_some', hflag]
    simp
  · intro s ds h
    exact captureLoop_capture hybridWeightPatterns s ds h

/-- Witness for C10: the general decimal statement instantiated at
`"80.5 kg"` itself. -/
theorem c10_witness :
    extractWeightL (['8', '0'] ++ '.' :: (['5'] ++ [' ', 'k', 'g'])) =
      some (natOfDigits ['5']) :=
  c10_decimal_weight_fragment.2.2.1 ['8', '0'] ['5']
    (by decide) (by decide) (by decide)
